import Mathlib

/-!
Verification of the LLAMBO acquisition engine
(`package/samplers/llambo/llambo/acquisition_function.py`).

Numbers are modelled as rationals (`ℚ`): Python's binary floats are
idealized as exact rationals, with Python's `round` (banker's rounding)
and `format(·, ".Nf")` modelled as exact half-to-even rounding on `ℚ`.
`np.log10` is transcendental, so it is carried as an abstract function
field `log10 : ℚ → ℚ` of the engine state; no proved statement depends
on its values.  Python dicts become association lists with unique keys,
and Python exceptions become `Option`/`Except` results.
-/

namespace Llambo

/-- Python's `round` to an integer: round half to even (banker's rounding),
as `round(x)` behaves on an exactly-representable value. -/
def pyRound (q : ℚ) : ℤ :=
  let f : ℤ := ⌊q⌋
  let r : ℚ := q - f
  if r < 1/2 then f
  else if 1/2 < r then f + 1
  else if f % 2 = 0 then f else f + 1

/-- Python's `round(value, p)`: scale by `10^p`, round half to even, scale back. -/
def roundTo (q : ℚ) (p : ℕ) : ℚ :=
  (pyRound (q * 10 ^ p) : ℚ) / 10 ^ p

/-- Count the decimal places among the last `fuel` digits of `m`
(`m` is the value scaled by `10^fuel`): strip trailing zeros and return
how many digit positions remain. -/
def dpAux : ℕ → ℤ → ℕ
  | 0, _ => 0
  | k + 1, m => if m % 10 = 0 then dpAux k (m / 10) else k + 1

/-- Model of `_count_decimal_places`: the source renders `format(n, ".10f")`
(ten decimal digits, so the value is rounded at the tenth place), strips
trailing zeros of the fractional part and counts what remains. -/
def count_decimal_places (q : ℚ) : ℕ :=
  dpAux 10 (pyRound (q * 10 ^ 10))

/-- Python's `int(x)` on a float: truncation toward zero. -/
def truncQ (q : ℚ) : ℤ := q.num.tdiv (q.den : ℤ)

/-- Python's `math.isclose(a, b, abs_tol=1e-2)`: the default relative
tolerance `rel_tol = 1e-9` stays in force, so the test is
`|a - b| ≤ max(1e-9 * max(|a|, |b|), 1e-2)`. -/
def pyIsClose (a b : ℚ) : Bool :=
  decide (|a - b| ≤ max (1/1000000000 * max |a| |b|) (1/100))

/-- A parsed hyperparameter configuration: Python dict name → float,
modelled as an association list with (by construction) unique keys. -/
abbrev Dict := List (String × ℚ)

/-- Every key/value pair of `d1` is present in `d2`. -/
def dictSub (d1 d2 : Dict) : Bool :=
  d1.all fun kv => decide (List.lookup kv.1 d2 = some kv.2)

/-- Python dict equality `d1 == d2`: the same keys with the same values,
independent of insertion order. -/
def dictBeq (d1 d2 : Dict) : Bool :=
  dictSub d1 d2 && dictSub d2 d1

/-- Python dict assignment `d[k] = v`: overwrite in place when the key
exists, append otherwise. -/
def dinsert (d : Dict) (k : String) (v : ℚ) : Dict :=
  if (List.lookup k d).isSome then
    d.map fun kv => if kv.1 = k then (k, v) else kv
  else d ++ [(k, v)]

/-- Hyperparameter kind: first component of a constraint tuple. -/
inductive HKind where
  | int
  | float
  | ordinal
deriving DecidableEq, Repr

/-- Hyperparameter transform: second component of a constraint tuple
(`None` or `"log"` in the source). -/
inductive HTransform where
  | none
  | log
deriving DecidableEq, Repr

/-- Model of one `hyperparameter_constraints` entry
`(type, transform, range)`: `range` is `[low, high]` for int/float and the
list of allowed values for ordinal. -/
structure HypConstraint where
  kind : HKind
  transform : HTransform
  range : List ℚ
deriving DecidableEq, Repr

/-- The slice of `LLM_ACQ` instance state the verified methods read.
`log10` is the abstract model of `np.log10`. -/
structure AcqState where
  constraints : List (String × HypConstraint)
  applyWarping : Bool
  lowerIsBetter : Bool
  applyJitter : Bool
  numPromptVariants : ℕ
  log10 : ℚ → ℚ

/-- Model of the nested `is_within_range` of `_filter_candidate_points`:
int/float values must lie in `[low, high]` (bounds moved to log10 space
when the transform is `"log"` and warping is active; ints must be whole
only in the non-log-warped case); ordinal values must be `math.isclose`
to some allowed value.  A malformed `[low, high]` range makes the source
raise on unpacking; here it yields `false` (never reached by the claims). -/
def is_within_range (acq : AcqState) (value : ℚ) (c : HypConstraint) : Bool :=
  match c.kind with
  | .int =>
    match c.range with
    | [lo, hi] =>
      if c.transform = .log ∧ acq.applyWarping then
        decide (acq.log10 lo ≤ value ∧ value ≤ acq.log10 hi)
      else
        decide (lo ≤ value ∧ value ≤ hi ∧ (truncQ value : ℚ) = value)
    | _ => false
  | .float =>
    match c.range with
    | [lo, hi] =>
      if c.transform = .log ∧ acq.applyWarping then
        decide (acq.log10 lo ≤ value ∧ value ≤ acq.log10 hi)
      else
        decide (lo ≤ value ∧ value ≤ hi)
    | _ => false
  | .ordinal => c.range.any fun x => pyIsClose value x

/-- Model of `is_dict_within_ranges`: every key of the candidate must exist
in the constraint set and its value must satisfy that constraint.  The
quantification runs over the keys present in the candidate only. -/
def is_dict_within_ranges (acq : AcqState) (d : Dict) : Bool :=
  d.all fun kv =>
    match List.lookup kv.1 acq.constraints with
    | some c => is_within_range acq kv.2 c
    | Option.none => false

/-- Model of `filter_dicts_by_ranges`. -/
def filter_dicts_by_ranges (acq : AcqState) (dictList : List Dict) : List Dict :=
  dictList.filter fun d => is_dict_within_ranges acq d

/-- Model of `DataFrame.drop_duplicates()` (keep the first occurrence of
each row; row equality is exact value equality, not rounded). -/
def dedupAux (seen : List Dict) : List Dict → List Dict
  | [] => []
  | d :: ds =>
    if seen.any fun s => dictBeq d s then dedupAux seen ds
    else d :: dedupAux (d :: seen) ds

/-- Round every value of a configuration to `p` decimal places. -/
def roundDict (d : Dict) (p : ℕ) : Dict :=
  d.map fun kv => (kv.1, roundTo kv.2 p)

/-- Model of `_filter_candidate_points`: drop candidates whose rounded form
equals a rounded observed row, keep candidates whose every field satisfies
its constraint, then drop exact duplicate rows. -/
def filter_candidate_points (acq : AcqState) (observed candidates : List Dict)
    (precision : ℕ) : List Dict :=
  let roundedObserved := observed.map fun d => roundDict d precision
  let notObserved := candidates.filter fun x =>
    !(roundedObserved.any fun o => dictBeq (roundDict x precision) o)
  let inRange := filter_dicts_by_ranges acq notObserved
  dedupAux [] inRange

/-- Minimum of a list of values (`np.min`; the source only calls it on a
nonempty table, the default for `[]` is never relevant). -/
def listMin (l : List ℚ) : ℚ := l.foldl min (l.headD 0)

/-- Maximum of a list of values (`np.max`). -/
def listMax (l : List ℚ) : ℚ := l.foldl max (l.headD 0)

/-! ## String splitting and Python float parsing

Python's `str.split(sep)` and `float(...)` are modelled on character
lists, with fuel-based structural recursion so that every definition
reduces inside the kernel (`decide`). -/

/-- Worker for `str.split(sep)`: scan left to right, cutting at each
(non-overlapping) occurrence of `sep`. `fuel` bounds the scan length
(callers pass the input length, which always suffices). -/
def pySplitAux (sep : List Char) : ℕ → List Char → List Char → List (List Char)
  | 0, l, acc => [acc.reverse ++ l]
  | _ + 1, [], acc => [acc.reverse]
  | fuel + 1, c :: rest, acc =>
    if sep ≠ [] ∧ sep.isPrefixOf (c :: rest) then
      acc.reverse :: pySplitAux sep fuel ((c :: rest).drop sep.length) []
    else
      pySplitAux sep fuel rest (c :: acc)

/-- Python's `s.split(sep)` for a nonempty separator. -/
def pySplit (sep : String) (s : String) : List String :=
  (pySplitAux sep.data s.data.length s.data []).map fun l => String.mk l

/-- Whitespace as Python's `str.strip()` removes it (ASCII part). -/
def isPySpace (c : Char) : Bool :=
  c = ' ' || c = '\t' || c = '\n' || c = '\r' || c = '\x0b' || c = '\x0c'

/-- Python's `s.strip()`. -/
def pyStrip (s : String) : String :=
  String.mk (((s.data.dropWhile isPySpace).reverse.dropWhile isPySpace).reverse)

/-- Value of a digit string. -/
def digitsVal (l : List Char) : ℕ :=
  l.foldl (fun n c => 10 * n + (c.toNat - 48)) 0

/-- Nonempty and all decimal digits. -/
def allDigits (l : List Char) : Bool :=
  decide (l ≠ []) && l.all fun c => c.isDigit

/-- Mantissa of a Python float literal: `digits`, `digits.`, `.digits` or
`digits.digits` (at least one digit overall). -/
def parseMantissa (l : List Char) : Option ℚ :=
  match pySplitAux ['.'] l.length l [] with
  | [i] => if allDigits i then some ((digitsVal i : ℚ)) else Option.none
  | [i, f] =>
    if (i.all fun c => c.isDigit) && (f.all fun c => c.isDigit)
        && (decide (i ≠ []) || decide (f ≠ [])) then
      some ((digitsVal i : ℚ) + (digitsVal f : ℚ) / 10 ^ f.length)
    else Option.none
  | _ => Option.none

/-- Exponent part of a Python float literal: optional sign then digits. -/
def parseExponent (l : List Char) : Option ℤ :=
  match l with
  | '+' :: r => if allDigits r then some ((digitsVal r : ℤ)) else Option.none
  | '-' :: r => if allDigits r then some (-(digitsVal r : ℤ)) else Option.none
  | r => if allDigits r then some ((digitsVal r : ℤ)) else Option.none

/-- Sign prefix of a float literal. -/
def splitSign : List Char → ℚ × List Char
  | '+' :: r => (1, r)
  | '-' :: r => (-1, r)
  | r => (1, r)

/-- Model of Python's `float(s)` on decimal literals: optional sign,
mantissa, optional `e`/`E` exponent, surrounding whitespace ignored.
(`inf`/`nan`/underscore forms are not modelled; no claim exercises them.) -/
def parsePyFloat (s : String) : Option ℚ :=
  let t := (pyStrip s).data.map Char.toLower
  let sb := splitSign t
  match pySplitAux ['e'] sb.2.length sb.2 [] with
  | [m] => (parseMantissa m).map fun q => sb.1 * q
  | [m, e] =>
    match parseMantissa m, parseExponent e with
    | some q, some ex => some (sb.1 * q * (10 : ℚ) ^ ex)
    | _, _ => Option.none
  | _ => Option.none

/-! ## ResponseParser (`_convert_to_json` and the parse loop) -/

/-- Model of one `name: value` pair of `_convert_to_json`:
`key, value = [x.strip() for x in pair.split(":")]` (exactly two parts,
else `ValueError`) then `float(value)`. -/
def parse_pair (p : String) : Option (String × ℚ) :=
  match (pySplit ":" p).map pyStrip with
  | [k, v] => (parsePyFloat v).map fun q => (k, q)
  | _ => Option.none

/-- Fold of `_convert_to_json` over the comma-separated pairs; any
malformed pair fails the whole response. -/
def convertAux : List String → Dict → Option Dict
  | [], d => some d
  | p :: ps, d =>
    match parse_pair p with
    | some kv => convertAux ps (dinsert d kv.1 kv.2)
    | Option.none => Option.none

/-- Model of `_convert_to_json`: split on commas, then on colons, strip,
coerce values with `float`; `none` models the `ValueError` the caller
catches. -/
def convert_to_json (s : String) : Option Dict :=
  convertAux (pySplit "," s) []

/-- The `response_content.split("##")[1].strip()` step of
`get_candidate_points` (an `IndexError`, caught by the same handler,
becomes `none`). -/
def extract_inner (s : String) : Option String :=
  ((pySplit "##" s).get? 1).map pyStrip

/-- Parsing of one LLM response inside `get_candidate_points`' try block. -/
def parse_response (s : String) : Option Dict :=
  (extract_inner s).bind convert_to_json

/-- The response loop of `get_candidate_points`: `None` slots are skipped,
parse failures are caught, logged and skipped; survivors are collected in
order. -/
def parse_responses (rs : List (Option String)) : List Dict :=
  rs.filterMap fun r => r.bind parse_response

/-! ## TargetComputer (`_adjust_alpha_and_desired_fval`) -/

/-- The fixed descending alpha ladder of `_adjust_alpha_and_desired_fval`. -/
def alpha_range : List ℚ := [1/10, 1/100, 1/1000, 1/10000, 1/100000]

/-- The minimization while-loop of `_adjust_alpha_and_desired_fval`:
`remaining` stands for `max_iterations - iteration` (the source counts
`iteration` up to 10); each pass picks the first ladder value below the
current alpha, or breaks to the clamped fallback. -/
def adjustLoopMin (best rangeVal : ℚ) : ℚ → ℚ → ℕ → ℚ × ℚ
  | alpha, desired, 0 => (alpha, desired)
  | alpha, desired, remaining + 1 =>
    if desired ≤ 1/100000 then
      match alpha_range.find? fun a => decide (a < alpha) with
      | some a => adjustLoopMin best rangeVal a (best - a * rangeVal) remaining
      | Option.none => (alpha, max (1/100000) (best * (9/10)))
    else (alpha, desired)

/-- The maximization while-loop of `_adjust_alpha_and_desired_fval`. -/
def adjustLoopMax (best rangeVal : ℚ) : ℚ → ℚ → ℕ → ℚ × ℚ
  | alpha, desired, 0 => (alpha, desired)
  | alpha, desired, remaining + 1 =>
    if desired ≥ 9999/10000 then
      match alpha_range.find? fun a => decide (a < alpha) with
      | some a => adjustLoopMax best rangeVal a (best + a * rangeVal) remaining
      | Option.none => (alpha, min (9999/10000) (best * (21/20)))
    else (alpha, desired)

/-- Model of `_adjust_alpha_and_desired_fval`: returns
`(adjusted alpha, desired target value)`. -/
def adjust_alpha_and_desired_fval (lowerIsBetter : Bool) (observedFvals : List ℚ)
    (alpha0 : ℚ) : ℚ × ℚ :=
  let alpha := |alpha0|
  if lowerIsBetter then
    let best := listMin observedFvals
    let worst := listMax observedFvals
    let rangeVal := worst - best
    adjustLoopMin best rangeVal alpha (best - alpha * rangeVal) 10
  else
    let best := listMax observedFvals
    let worst := listMin observedFvals
    let rangeVal := best - worst
    adjustLoopMax best rangeVal alpha (best + alpha * rangeVal) 10

/-! ## CandidateFormatter (`_prepare_configurations_acquisition`) -/

/-- A rendered numeric cell: which format the source applies.
`asInt v` is `str(int(value))`; `fixed v dp` is `f"{value:.{dp}f}"`
(the pair of value and decimal count determines the printed text). -/
inductive RenderedCell where
  | asInt (v : ℤ)
  | fixed (v : ℚ) (dp : ℕ)
deriving DecidableEq, Repr

/-- Model of the per-value rendering of `_prepare_configurations_acquisition`
(lines 234-269): the reference bound is `range[0]` for int/float and
`range[1]` for ordinal; only the `float` kind upgrades the precision to
`max(1, decimals(bound), decimals(value))`; the branch structure follows
`apply_warping` exactly.  (The source's final `else: str(value)` branches
are unreachable for the three declared kinds, and an ordinal range with
fewer than two values raises IndexError in the source — the `getD 0`
default stands in only for that unreachable case.) -/
def renderValue (acq : AcqState) (c : HypConstraint) (value : ℚ) : RenderedCell :=
  let lowerBound : ℚ :=
    match c.kind with
    | .int | .float => c.range.headD 0
    | .ordinal => (c.range.get? 1).getD 0
  let nDp0 := count_decimal_places lowerBound
  let nDp := if c.kind = .float then max 1 (max nDp0 (count_decimal_places value)) else nDp0
  if acq.applyWarping then
    if c.kind = .int ∧ c.transform ≠ .log then .asInt (truncQ value)
    else if c.kind = .float ∨ c.transform = .log then .fixed value nDp
    else .fixed value nDp
  else
    if c.kind = .int then .asInt (truncQ value)
    else .fixed value nDp

/-- Insert into a sorted list under the Boolean comparison `le`. -/
def insertLe {α : Type} (le : α → α → Bool) (a : α) : List α → List α
  | [] => [a]
  | b :: bs => if le a b then a :: b :: bs else b :: insertLe le a bs

/-- Comparison sort (models `DataFrame.sort_values`: any comparison sort
realizes the same sorted order; tie order is unspecified in pandas'
default quicksort and no claim depends on it). -/
def insSort {α : Type} (le : α → α → Bool) : List α → List α
  | [] => []
  | a :: l => insertLe le a (insSort le l)

/-- Row ordering of the no-seed branch: `sort_values(ascending=False)` for
minimization (performance descending), `ascending=True` for maximization. -/
def sortRowsByFval (lowerIsBetter : Bool) (rows : List (Dict × ℚ)) : List (Dict × ℚ) :=
  if lowerIsBetter then insSort (fun a b => decide (b.2 ≤ a.2)) rows
  else insSort (fun a b => decide (a.2 ≤ b.2)) rows

/-- Row ordering of `_prepare_configurations_acquisition`: with a seed, the
rows are reordered by the permutation `np.random.permutation` derives from
that seed (carried abstractly as `permFn seed n`, a list of positions);
without a seed they are sorted by performance as the source does. -/
def ordered_examples (lowerIsBetter : Bool) (permFn : ℕ → ℕ → List ℕ)
    (configs : List Dict) (fvals : List ℚ) (seed : Option ℕ) : List (Dict × ℚ) :=
  let rows := configs.zip fvals
  match seed with
  | some s => (permFn s rows.length).filterMap fun i => rows.get? i
  | Option.none => sortRowsByFval lowerIsBetter rows

/-- One few-shot example: the rendered configuration row (`Q`) and the
rendered performance value (`A`). -/
structure FewShotExample where
  q : List (String × RenderedCell)
  a : RenderedCell
deriving DecidableEq, Repr

/-- Render one configuration row cell by cell (a missing constraint key
would raise `KeyError` in the source; the default cell below is unreachable
whenever every column is constrained, which every claim assumes). -/
def renderRow (acq : AcqState) (d : Dict) : List (String × RenderedCell) :=
  d.map fun kv =>
    match List.lookup kv.1 acq.constraints with
    | some c => (kv.1, renderValue acq c kv.2)
    | Option.none => (kv.1, RenderedCell.asInt 0)

/-- Model of `_prepare_configurations_acquisition` on a configuration table
with matching performance values: order the rows, render each configuration,
and render each performance value with 6 decimal digits. -/
def prepare_configurations_acquisition (acq : AcqState) (permFn : ℕ → ℕ → List ℕ)
    (configs : List Dict) (fvals : List ℚ) (seed : Option ℕ) : List FewShotExample :=
  (ordered_examples acq.lowerIsBetter permFn configs fvals seed).map fun r =>
    { q := renderRow acq r.1, a := RenderedCell.fixed r.2 6 }

/-! ## ConcurrentDispatcher (`_async_generate_concurrently`) -/

/-- How a dispatch can abort: the `assert len(tasks) == num_prompt_variants`
failing, or an exception from an underlying call propagating out of
`asyncio.gather` (no `return_exceptions=True` in the source). -/
inductive DispatchError (ε : Type) where
  | assertionError
  | callError (e : ε)
deriving DecidableEq, Repr

/-- Model of `asyncio.gather` over already-determined task outcomes: all
results in order, or the first raised exception propagated.  (The tasks'
bodies are synchronous up to their single call, so completion order is
submission order.) -/
def gatherE {ε α : Type} : List (Except ε α) → Except ε (List α)
  | [] => .ok []
  | .error e :: _ => .error e
  | .ok a :: rest =>
    match gatherE rest with
    | .error e => .error e
    | .ok l => .ok (a :: l)

/-- Model of `_async_generate_concurrently`: one task per
`zip(prompt_templates, query_templates)` pair, the length assertion, then
`gather`.  Each `_async_generate` returns the `(response, cost)` pair, so
every gathered slot is non-`None` and the copy loop writes `some` into
every result slot; an exception instead aborts the whole call. -/
def async_generate_concurrently {T Q R ε : Type} (ask : T × Q → Except ε R)
    (promptTemplates : List T) (queryTemplates : List Q)
    (numPromptVariants : ℕ) : Except (DispatchError ε) (List (Option R)) :=
  let tasks := (promptTemplates.zip queryTemplates).map ask
  if tasks.length ≠ numPromptVariants then .error .assertionError
  else
    match gatherE tasks with
    | .error e => .error (.callError e)
    | .ok rs => .ok (rs.map fun r => some r)

/-! ## PromptBuilder and RetryController (`get_candidate_points`) -/

/-- The data that distinguishes one generated prompt variant from another:
the few-shot shuffle seed (`seed=i` in the builder loop) and the jittered
target carried by its query template.  The surrounding static prompt text
is common to all variants and carries nothing the claims speak about. -/
structure PromptVariant where
  fewShotSeed : ℕ
  jitteredTarget : ℚ
deriving DecidableEq, Repr

/-- Model of `_jitter`: when jitter is on, draw
`np.random.uniform(min(desired, best), max(desired, best))`; the
process-wide random stream is modelled as a list of `[0,1)` draws that is
threaded through (an exhausted stream returns `desired` unchanged — a model
artifact, never hit when callers supply enough draws). -/
def jitterStep (applyJitter : Bool) (best desired : ℚ) (rng : List ℚ) : ℚ × List ℚ :=
  if applyJitter then
    match rng with
    | u :: rest => (min desired best + u * (max desired best - min desired best), rest)
    | [] => (desired, [])
  else (desired, rng)

/-- The `for i in range(n_prompts)` loop of
`_gen_prompt_templates_acquisitions`: each pass prepares few-shot examples
with `seed=i` and jitters the desired value afresh. -/
def genPromptsAux (applyJitter : Bool) (best desired : ℚ) :
    ℕ → ℕ → List ℚ → List PromptVariant × List ℚ
  | _, 0, rng => ([], rng)
  | i, n + 1, rng =>
    let jr := jitterStep applyJitter best desired rng
    let rest := genPromptsAux applyJitter best desired (i + 1) n jr.2
    (⟨i, jr.1⟩ :: rest.1, rest.2)

/-- Model of `_gen_prompt_templates_acquisitions`: the list of generated
prompt variants plus the advanced random stream. -/
def gen_prompt_templates_acquisitions (acq : AcqState) (best desired : ℚ)
    (nPrompts : ℕ) (rng : List ℚ) : List PromptVariant × List ℚ :=
  genPromptsAux acq.applyJitter best desired 0 nPrompts rng

/-- The prompt variants `get_candidate_points` builds (once, before its
retry loop): target adjustment, then prompt generation. -/
def gcp_templates (acq : AcqState) (fvals : List ℚ) (alpha0 : ℚ) (rng : List ℚ) :
    List PromptVariant :=
  let alpha := if alpha0 ≤ 0 then 1/1000 else alpha0
  let ad := adjust_alpha_and_desired_fval acq.lowerIsBetter fvals alpha
  let best := if acq.lowerIsBetter then listMin fvals else listMax fvals
  (gen_prompt_templates_acquisitions acq best ad.2 acq.numPromptVariants rng).1

/-- The retry loop of `get_candidate_points`.  `llm retry` gives the
response texts of the attempt dispatched at counter value `retry`
(`None` = failed slot); `remaining` stands for `10 - retry`, so the
source's `retry > 10` test after the increment is `remaining = 0` (split
into the two equations below; in the last pass the source also computes a
filtered table, only to print and discard it, so it is omitted there).
Returns the outcome (`error` models the final `RuntimeError`), the number
of attempts dispatched, and the prompt-variant batch sent on each attempt. -/
def gcpLoop (acq : AcqState) (observed : List Dict) (templates : List PromptVariant)
    (llm : ℕ → List (Option String)) :
    ℕ → ℕ → List Dict → Except Unit (List Dict) × ℕ × List (List PromptVariant)
  | 0, retry, filtered =>
    if filtered.length < 5 then
      let candidatePoints := parse_responses (llm retry)
      if 5 ≤ candidatePoints.length then (.ok candidatePoints, 1, [templates])
      else (.error (), 1, [templates])
    else (.ok filtered, 0, [])
  | remaining + 1, retry, filtered =>
    if filtered.length < 5 then
      let candidatePoints := parse_responses (llm retry)
      let filtered2 := filter_candidate_points acq observed candidatePoints 6
      let res := gcpLoop acq observed templates llm remaining (retry + 1) filtered2
      (res.1, res.2.1 + 1, templates :: res.2.2)
    else (.ok filtered, 0, [])

/-- Model of `get_candidate_points` (candidate table only; cost and wall
time are unmodelled): validate alpha, adjust the target, build the prompt
variants once, then run the retry loop from `retry = 0` with an empty
candidate table.  The optional warp/unwarp of an external transformer is
the identity here (`warping_transformer is None`). -/
def get_candidate_points (acq : AcqState) (observed : List Dict) (fvals : List ℚ)
    (alpha0 : ℚ) (rng : List ℚ) (llm : ℕ → List (Option String)) :
    Except Unit (List Dict) × ℕ × List (List PromptVariant) :=
  gcpLoop acq observed (gcp_templates acq fvals alpha0 rng) llm 10 0 []

/-- Modelled from the spec (§4.6: "repeat (generating fresh jittered targets
and fresh prompt variants each time)"): the dispatch log the same retry loop
would produce if it regenerated the prompt variants on every attempt,
threading the random stream forward.  This definition follows the spec's
words, not the source, and exists only to contrast with the source's
behaviour, which builds the variants once. -/
def gcpFreshDispatches (acq : AcqState) (best desired : ℚ) (observed : List Dict)
    (llm : ℕ → List (Option String)) :
    ℕ → ℕ → List ℚ → List Dict → List (List PromptVariant)
  | remaining, retry, rng, filtered =>
    if filtered.length < 5 then
      let tpl := gen_prompt_templates_acquisitions acq best desired acq.numPromptVariants rng
      let candidatePoints := parse_responses (llm retry)
      let filtered2 := filter_candidate_points acq observed candidatePoints 6
      match remaining with
      | 0 => [tpl.1]
      | r + 1 =>
        tpl.1 :: gcpFreshDispatches acq best desired observed llm r (retry + 1) tpl.2 filtered2
    else []

/-! ## Concrete instances used by witnesses and counterexamples -/

/-- The comma-separated segment `_convert_to_json` receives for a response
`s`: the text between the first pair of `##` markers, stripped (empty when
no inner segment exists, in which case parsing fails anyway). -/
def inner_text (s : String) : String :=
  (((pySplit "##" s).get? 1).map pyStrip).getD ""

/-- An engine over one float hyperparameter `x ∈ [0, 2]`. -/
def acqFloat : AcqState :=
  { constraints := [("x", ⟨.float, .none, [0, 2]⟩)], applyWarping := false,
    lowerIsBetter := true, applyJitter := false, numPromptVariants := 1,
    log10 := fun _ => 0 }

/-- An engine over one ordinal hyperparameter with the single allowed value
`10^10`. -/
def acqOrdinalBig : AcqState :=
  { acqFloat with constraints := [("o", ⟨.ordinal, .none, [10 ^ 10]⟩)] }

/-- An engine over two int hyperparameters `a, b ∈ [0, 10]`. -/
def acqIntPair : AcqState :=
  { acqFloat with
    constraints := [("a", ⟨.int, .none, [0, 10]⟩), ("b", ⟨.int, .none, [0, 10]⟩)] }

/-- The float engine with warping active. -/
def acqWarped : AcqState := { acqFloat with applyWarping := true }

/-- The float engine with jitter active. -/
def acqJitter : AcqState := { acqFloat with applyJitter := true }

/-- A response generator that always yields five distinct valid candidates. -/
def llmFive : ℕ → List (Option String) := fun _ =>
  [some "## x: 0.1 ##", some "## x: 0.2 ##", some "## x: 0.3 ##",
   some "## x: 0.4 ##", some "## x: 0.5 ##"]

/-- A response generator that never yields anything. -/
def llmSilent : ℕ → List (Option String) := fun _ => []

/-- A response generator that always yields five parseable candidates that
are all out of the float engine's range `[0, 2]` (so they parse as raw
candidates but never validate). -/
def llmRawOnly : ℕ → List (Option String) := fun _ =>
  [some "## x: 7.1 ##", some "## x: 7.2 ##", some "## x: 7.3 ##",
   some "## x: 7.4 ##", some "## x: 7.5 ##"]

/-- A trivial seed-permutation model (enough for counterexamples that only
exercise the no-seed branch). -/
def permZero : ℕ → ℕ → List ℕ := fun _ _ => []

/-- A transport call that always succeeds. -/
def askAlwaysOk : ℕ × ℕ → Except Unit (String × ℚ) := fun _ => .ok ("response", 0)

/-- A transport call that always raises. -/
def askRaises : Unit × Unit → Except Unit (String × ℚ) := fun _ => .error ()

/-! ## Helper lemmas -/

theorem convertAux_eq_none {p : String} (hmal : parse_pair p = Option.none) :
    ∀ (ps : List String) (d : Dict), p ∈ ps → convertAux ps d = Option.none := by
  intro ps
  induction ps with
  | nil => intro d h; cases h
  | cons q qs ih =>
    intro d hp
    rcases List.mem_cons.mp hp with rfl | hq
    · simp [convertAux, hmal]
    · unfold convertAux
      cases hpq : parse_pair q with
      | none => rfl
      | some kv => exact ih _ hq

theorem parse_response_eq_none {s : String}
    (h : ∃ p ∈ pySplit "," (inner_text s), parse_pair p = Option.none) :
    parse_response s = Option.none := by
  obtain ⟨p, hp, hmal⟩ := h
  unfold parse_response extract_inner
  cases hg : (pySplit "##" s).get? 1 with
  | none => rfl
  | some raw =>
    have hit : inner_text s = pyStrip raw := by
      unfold inner_text
      rw [hg]
      rfl
    simp only [Option.map_some', Option.some_bind]
    unfold convert_to_json
    exact convertAux_eq_none hmal _ _ (hit ▸ hp)

theorem gatherE_map_some {ε α : Type} :
    ∀ l : List (Except ε α), (∀ x ∈ l, x.isOk = true) →
      ∃ v, gatherE l = .ok v ∧ v.map some = l.map Except.toOption := by
  intro l
  induction l with
  | nil => intro _; exact ⟨[], rfl, rfl⟩
  | cons x xs ih =>
    intro h
    obtain ⟨v, hv, hmap⟩ := ih fun y hy => h y (List.mem_cons_of_mem _ hy)
    have hx := h x (List.mem_cons_self x xs)
    cases x with
    | error e => simp [Except.isOk, Except.toBool] at hx
    | ok a =>
      refine ⟨a :: v, ?_, ?_⟩
      · unfold gatherE
        rw [hv]
      · simp [hmap, Except.toOption]

/-! ## C9 -/

/-- C9: for every response text, parsing (splitting on the `##` delimiter,
taking the inner segment, splitting on commas then colons, coercing each
value to a number) fails for that single response whenever any pair is
malformed, and such a failure only drops that one response — it never
aborts the processing of the rest of the batch. -/
theorem C9_parse_failure_is_local (xs ys : List (Option String)) (s p : String)
    (hp : p ∈ pySplit "," (inner_text s)) (hmal : parse_pair p = Option.none) :
    parse_response s = Option.none ∧
      parse_responses (xs ++ some s :: ys) = parse_responses xs ++ parse_responses ys := by
  have h1 : parse_response s = Option.none := parse_response_eq_none ⟨p, hp, hmal⟩
  refine ⟨h1, ?_⟩
  unfold parse_responses
  rw [List.filterMap_append]
  simp [h1]

/-- Witness for C9 at a concrete batch: the middle response `"## a: b ##"`
has a pair with a non-numeric value, is dropped alone, and the two valid
neighbours still parse. -/
theorem C9_witness :
    parse_response "## a: b ##" = Option.none ∧
      parse_responses [some "## x: 1.0 ##", some "## a: b ##", some "## y: 2.0 ##"]
        = parse_responses [some "## x: 1.0 ##"] ++ parse_responses [some "## y: 2.0 ##"] :=
  C9_parse_failure_is_local [some "## x: 1.0 ##"] [some "## y: 2.0 ##"] "## a: b ##" "a: b"
    (by with_unfolding_all decide) (by with_unfolding_all decide)

/-! ## C2 -/

/-- C2 (amended): when no underlying call raises, the dispatcher returns a
results array of length exactly `N` with every slot filled; the length
assertion requires the batch size to equal `num_prompt_variants`.  (A call
that raises instead propagates out of `asyncio.gather` and aborts the whole
batch — see the counterexample.) -/
theorem C2_dispatcher_shape {T Q R ε : Type} (ask : T × Q → Except ε R)
    (pts : List T) (qts : List Q) (n : ℕ)
    (hlen : (pts.zip qts).length = n)
    (hok : ∀ pq ∈ pts.zip qts, (ask pq).isOk = true) :
    async_generate_concurrently ask pts qts n
        = .ok ((pts.zip qts).map fun pq => (ask pq).toOption) ∧
      ((pts.zip qts).map fun pq => (ask pq).toOption).length = n ∧
      ((pts.zip qts).map fun pq => (ask pq).toOption).all Option.isSome = true := by
  have hok' : ∀ x ∈ (pts.zip qts).map ask, x.isOk = true := by
    intro x hx
    obtain ⟨pq, hpq, rfl⟩ := List.mem_map.mp hx
    exact hok pq hpq
  obtain ⟨v, hv, hmap⟩ := gatherE_map_some _ hok'
  refine ⟨?_, ?_, ?_⟩
  · unfold async_generate_concurrently
    have hl : ((pts.zip qts).map ask).length = n := by rw [List.length_map, hlen]
    rw [if_neg (by simp [hl])]
    rw [hv]
    show Except.ok (v.map fun r => some r) = _
    have : v.map (fun r => some r) = (pts.zip qts).map fun pq => (ask pq).toOption := by
      rw [show v.map (fun r => some r) = v.map some from rfl, hmap, List.map_map]
      rfl
    rw [this]
  · rw [List.length_map, hlen]
  · rw [List.all_eq_true]
    intro o ho
    obtain ⟨pq, hpq, rfl⟩ := List.mem_map.mp ho
    have hpq2 := hok pq hpq
    cases hask : ask pq with
    | error e => rw [hask] at hpq2; simp [Except.isOk, Except.toBool] at hpq2
    | ok a => simp [hask, Except.toOption]

/-- Witness for C2 at a concrete one-variant batch whose call succeeds. -/
theorem C2_witness :
    async_generate_concurrently askAlwaysOk [0] [0] 1
        = .ok (([0].zip [0]).map fun pq => (askAlwaysOk pq).toOption) ∧
      (([0].zip [0]).map fun pq => (askAlwaysOk pq).toOption).length = 1 ∧
      (([0].zip [0]).map fun pq => (askAlwaysOk pq).toOption).all Option.isSome = true :=
  C2_dispatcher_shape askAlwaysOk [0] [0] 1 (by with_unfolding_all decide)
    (by with_unfolding_all decide)

/-- Counterexample to C2 as stated: a one-variant batch whose single
underlying call raises does not yield a length-1 results array with an
empty slot — the exception propagates out of `asyncio.gather` (no
`return_exceptions=True`) and the whole dispatch aborts. -/
theorem C2_counterexample :
    async_generate_concurrently askRaises [()] [()] 1
      = .error (DispatchError.callError ()) := by
  with_unfolding_all rfl

/-! ## C3 -/

theorem alpha_range_mem_pos {a : ℚ} (h : a ∈ alpha_range) : 0 < a := by
  simp only [alpha_range, List.mem_cons, List.mem_singleton, List.not_mem_nil, or_false] at h
  rcases h with rfl | rfl | rfl | rfl | rfl <;> norm_num

theorem adjustLoopMin_spec (best rangeVal : ℚ) :
    ∀ (remaining : ℕ) (alpha desired : ℚ), 0 < alpha →
      desired = best - alpha * rangeVal →
      0 < (adjustLoopMin best rangeVal alpha desired remaining).1 ∧
        (adjustLoopMin best rangeVal alpha desired remaining).1 ≤ alpha ∧
        ((adjustLoopMin best rangeVal alpha desired remaining).2
            = best - (adjustLoopMin best rangeVal alpha desired remaining).1 * rangeVal ∨
          (adjustLoopMin best rangeVal alpha desired remaining).2
            = max (1/100000) (best * (9/10))) := by
  intro remaining
  induction remaining with
  | zero =>
    intro alpha desired hα hdes
    exact ⟨hα, le_rfl, Or.inl hdes⟩
  | succ r ih =>
    intro alpha desired hα hdes
    simp only [adjustLoopMin]
    by_cases hd : desired ≤ 1/100000
    · rw [if_pos hd]
      cases hfind : alpha_range.find? fun a => decide (a < alpha) with
      | none => exact ⟨hα, le_rfl, Or.inr rfl⟩
      | some a =>
        have ha1 : a < alpha := by
          have := List.find?_some hfind
          simpa using this
        have ha0 : 0 < a := alpha_range_mem_pos (List.mem_of_find?_eq_some hfind)
        obtain ⟨h1, h2, h3⟩ := ih a (best - a * rangeVal) ha0 rfl
        exact ⟨h1, le_trans h2 (le_of_lt ha1), h3⟩
    · rw [if_neg hd]
      exact ⟨hα, le_rfl, Or.inl hdes⟩

theorem adjustLoopMax_spec (best rangeVal : ℚ) :
    ∀ (remaining : ℕ) (alpha desired : ℚ), 0 < alpha →
      desired = best + alpha * rangeVal →
      0 < (adjustLoopMax best rangeVal alpha desired remaining).1 ∧
        (adjustLoopMax best rangeVal alpha desired remaining).1 ≤ alpha ∧
        ((adjustLoopMax best rangeVal alpha desired remaining).2
            = best + (adjustLoopMax best rangeVal alpha desired remaining).1 * rangeVal ∨
          (adjustLoopMax best rangeVal alpha desired remaining).2
            = min (9999/10000) (best * (21/20))) := by
  intro remaining
  induction remaining with
  | zero =>
    intro alpha desired hα hdes
    exact ⟨hα, le_rfl, Or.inl hdes⟩
  | succ r ih =>
    intro alpha desired hα hdes
    simp only [adjustLoopMax]
    by_cases hd : desired ≥ 9999/10000
    · rw [if_pos hd]
      cases hfind : alpha_range.find? fun a => decide (a < alpha) with
      | none => exact ⟨hα, le_rfl, Or.inr rfl⟩
      | some a =>
        have ha1 : a < alpha := by
          have := List.find?_some hfind
          simpa using this
        have ha0 : 0 < a := alpha_range_mem_pos (List.mem_of_find?_eq_some hfind)
        obtain ⟨h1, h2, h3⟩ := ih a (best + a * rangeVal) ha0 rfl
        exact ⟨h1, le_trans h2 (le_of_lt ha1), h3⟩
    · rw [if_neg hd]
      exact ⟨hα, le_rfl, Or.inl hdes⟩

theorem foldl_min_le_init (l : List ℚ) : ∀ a : ℚ, l.foldl min a ≤ a := by
  induction l with
  | nil => intro a; exact le_rfl
  | cons x xs ih => intro a; exact le_trans (ih (min a x)) (min_le_left a x)

theorem init_le_foldl_max (l : List ℚ) : ∀ a : ℚ, a ≤ l.foldl max a := by
  induction l with
  | nil => intro a; exact le_rfl
  | cons x xs ih => intro a; exact le_trans (le_max_left a x) (ih (max a x))

theorem listMin_le_listMax (l : List ℚ) : listMin l ≤ listMax l :=
  le_trans (foldl_min_le_init l _) (init_le_foldl_max l _)

/-- C3 (amended): for a nonempty observation set and positive alpha,
`_adjust_alpha_and_desired_fval` returns an adjusted alpha in `(0, alpha]`
and a desired value equal either to `best ∓ alpha'·range` or to the
documented clamp value; hence the desired value is strictly on the
improving side of `best` whenever the observed range is positive, but
equals `best` itself when all observations coincide (range `0`) and no
clamping occurs — the strict-improvement part of the claim fails in that
degenerate case (see the counterexample). -/
theorem C3_target_adjustment (lib : Bool) (fvals : List ℚ) (alpha0 : ℚ)
    (hne : fvals ≠ []) (hα : 0 < alpha0) :
    0 < (adjust_alpha_and_desired_fval lib fvals alpha0).1 ∧
      (adjust_alpha_and_desired_fval lib fvals alpha0).1 ≤ alpha0 ∧
      (lib = true →
        (adjust_alpha_and_desired_fval lib fvals alpha0).2
            = listMin fvals
              - (adjust_alpha_and_desired_fval lib fvals alpha0).1
                * (listMax fvals - listMin fvals) ∨
          (adjust_alpha_and_desired_fval lib fvals alpha0).2
            = max (1/100000) (listMin fvals * (9/10))) ∧
      (lib = false →
        (adjust_alpha_and_desired_fval lib fvals alpha0).2
            = listMax fvals
              + (adjust_alpha_and_desired_fval lib fvals alpha0).1
                * (listMax fvals - listMin fvals) ∨
          (adjust_alpha_and_desired_fval lib fvals alpha0).2
            = min (9999/10000) (listMax fvals * (21/20))) ∧
      (lib = true → listMin fvals < listMax fvals →
        (adjust_alpha_and_desired_fval lib fvals alpha0).2 < listMin fvals ∨
          (adjust_alpha_and_desired_fval lib fvals alpha0).2
            = max (1/100000) (listMin fvals * (9/10))) ∧
      (lib = false → listMin fvals < listMax fvals →
        listMax fvals < (adjust_alpha_and_desired_fval lib fvals alpha0).2 ∨
          (adjust_alpha_and_desired_fval lib fvals alpha0).2
            = min (9999/10000) (listMax fvals * (21/20))) := by
  have habs : |alpha0| = alpha0 := abs_of_pos hα
  cases lib with
  | true =>
    have hrfl : adjust_alpha_and_desired_fval true fvals alpha0
        = adjustLoopMin (listMin fvals) (listMax fvals - listMin fvals) |alpha0|
            (listMin fvals - |alpha0| * (listMax fvals - listMin fvals)) 10 := rfl
    rw [hrfl, habs]
    obtain ⟨h1, h2, h3⟩ := adjustLoopMin_spec (listMin fvals)
      (listMax fvals - listMin fvals) 10 alpha0
      (listMin fvals - alpha0 * (listMax fvals - listMin fvals)) hα rfl
    refine ⟨h1, h2, fun _ => h3, ?_, ?_, ?_⟩
    · intro hf
      simp at hf
    · intro _ hrange
      rcases h3 with h3 | h3
      · left
        rw [h3]
        have hpos : 0 < (adjustLoopMin (listMin fvals) (listMax fvals - listMin fvals) alpha0
            (listMin fvals - alpha0 * (listMax fvals - listMin fvals)) 10).1
              * (listMax fvals - listMin fvals) :=
          mul_pos h1 (by linarith)
        linarith
      · right
        exact h3
    · intro hf
      simp at hf
  | false =>
    have hrfl : adjust_alpha_and_desired_fval false fvals alpha0
        = adjustLoopMax (listMax fvals) (listMax fvals - listMin fvals) |alpha0|
            (listMax fvals + |alpha0| * (listMax fvals - listMin fvals)) 10 := rfl
    rw [hrfl, habs]
    obtain ⟨h1, h2, h3⟩ := adjustLoopMax_spec (listMax fvals)
      (listMax fvals - listMin fvals) 10 alpha0
      (listMax fvals + alpha0 * (listMax fvals - listMin fvals)) hα rfl
    refine ⟨h1, h2, ?_, fun _ => h3, ?_, ?_⟩
    · intro ht
      simp at ht
    · intro ht
      simp at ht
    · intro _ hrange
      rcases h3 with h3 | h3
      · left
        rw [h3]
        have hpos : 0 < (adjustLoopMax (listMax fvals) (listMax fvals - listMin fvals) alpha0
            (listMax fvals + alpha0 * (listMax fvals - listMin fvals)) 10).1
              * (listMax fvals - listMin fvals) :=
          mul_pos h1 (by linarith)
        linarith
      · right
        exact h3

/-- Witness for C3 at a concrete minimization input (`fvals = [1/2, 3/10]`,
`alpha = 1/10`). -/
theorem C3_witness :
    0 < (adjust_alpha_and_desired_fval true [1/2, 3/10] (1/10)).1 ∧
      (adjust_alpha_and_desired_fval true [1/2, 3/10] (1/10)).1 ≤ 1/10 ∧
      (true = true →
        (adjust_alpha_and_desired_fval true [1/2, 3/10] (1/10)).2
            = listMin [1/2, 3/10]
              - (adjust_alpha_and_desired_fval true [1/2, 3/10] (1/10)).1
                * (listMax [1/2, 3/10] - listMin [1/2, 3/10]) ∨
          (adjust_alpha_and_desired_fval true [1/2, 3/10] (1/10)).2
            = max (1/100000) (listMin [1/2, 3/10] * (9/10))) ∧
      (true = false →
        (adjust_alpha_and_desired_fval true [1/2, 3/10] (1/10)).2
            = listMax [1/2, 3/10]
              + (adjust_alpha_and_desired_fval true [1/2, 3/10] (1/10)).1
                * (listMax [1/2, 3/10] - listMin [1/2, 3/10]) ∨
          (adjust_alpha_and_desired_fval true [1/2, 3/10] (1/10)).2
            = min (9999/10000) (listMax [1/2, 3/10] * (21/20))) ∧
      (true = true → listMin [1/2, 3/10] < listMax [1/2, 3/10] →
        (adjust_alpha_and_desired_fval true [1/2, 3/10] (1/10)).2 < listMin [1/2, 3/10] ∨
          (adjust_alpha_and_desired_fval true [1/2, 3/10] (1/10)).2
            = max (1/100000) (listMin [1/2, 3/10] * (9/10))) ∧
      (true = false → listMin [1/2, 3/10] < listMax [1/2, 3/10] →
        listMax [1/2, 3/10] < (adjust_alpha_and_desired_fval true [1/2, 3/10] (1/10)).2 ∨
          (adjust_alpha_and_desired_fval true [1/2, 3/10] (1/10)).2
            = min (9999/10000) (listMax [1/2, 3/10] * (21/20))) :=
  C3_target_adjustment true [1/2, 3/10] (1/10) (by with_unfolding_all decide)
    (by with_unfolding_all decide)

/-- Counterexample to C3 as stated: with a single observation (`range = 0`)
and minimization, the returned desired value equals the best observation
(`1/2`) — it is neither strictly below `best` nor the clamp value
`max(1e-5, best·0.9) = 9/20`. -/
theorem C3_counterexample :
    adjust_alpha_and_desired_fval true [1/2] (1/10) = (1/10, 1/2) ∧
      ¬((1 : ℚ)/2 < 1/2) ∧ (1 : ℚ)/2 ≠ max (1/100000) ((1/2) * (9/10)) := by
  with_unfolding_all decide

/-! ## C4, C5, C10: the candidate validator -/

theorem dictBeq_symm (d1 d2 : Dict) : dictBeq d1 d2 = dictBeq d2 d1 := by
  unfold dictBeq
  exact Bool.and_comm _ _

theorem dedupAux_subset {d : Dict} : ∀ (l seen : List Dict), d ∈ dedupAux seen l → d ∈ l := by
  intro l
  induction l with
  | nil =>
    intro seen h
    simp [dedupAux] at h
  | cons x xs ih =>
    intro seen h
    unfold dedupAux at h
    by_cases hx : (seen.any fun s_ => dictBeq x s_) = true
    · rw [if_pos hx] at h
      exact List.mem_cons_of_mem _ (ih _ h)
    · rw [if_neg hx] at h
      rcases List.mem_cons.mp h with rfl | h2
      · exact List.mem_cons_self _ _
      · exact List.mem_cons_of_mem _ (ih _ h2)

theorem dedupAux_spec : ∀ (l seen : List Dict),
    (dedupAux seen l).Pairwise (fun a b => dictBeq a b = false) ∧
      ∀ d ∈ dedupAux seen l, ∀ e ∈ seen, dictBeq d e = false := by
  intro l
  induction l with
  | nil =>
    intro seen
    refine ⟨List.Pairwise.nil, ?_⟩
    intro d hd
    simp [dedupAux] at hd
  | cons x xs ih =>
    intro seen
    unfold dedupAux
    by_cases hx : (seen.any fun s_ => dictBeq x s_) = true
    · rw [if_pos hx]
      exact ih seen
    · rw [if_neg hx]
      obtain ⟨pw, hs⟩ := ih (x :: seen)
      have hfalse : (seen.any fun s_ => dictBeq x s_) = false := by
        simpa using hx
      have hxseen : ∀ e ∈ seen, dictBeq x e = false := by
        intro e he
        have := List.any_eq_false.mp hfalse e he
        simpa using this
      constructor
      · rw [List.pairwise_cons]
        refine ⟨?_, pw⟩
        intro y hy
        have := hs y hy x (List.mem_cons_self _ _)
        rw [dictBeq_symm]
        exact this
      · intro d hd e he
        rcases List.mem_cons.mp hd with rfl | hd2
        · exact hxseen e he
        · exact hs d hd2 e (List.mem_cons_of_mem _ he)

theorem mem_filter_candidate_points {acq : AcqState} {observed candidates : List Dict}
    {p : ℕ} {d : Dict} (h : d ∈ filter_candidate_points acq observed candidates p) :
    d ∈ candidates ∧ is_dict_within_ranges acq d = true ∧
      ∀ o ∈ observed, dictBeq (roundDict d p) (roundDict o p) = false := by
  simp only [filter_candidate_points, filter_dicts_by_ranges] at h
  have h1 := dedupAux_subset _ _ h
  obtain ⟨h2, h3⟩ := List.mem_filter.mp h1
  obtain ⟨h4, h5⟩ := List.mem_filter.mp h2
  refine ⟨h4, h3, ?_⟩
  intro o ho
  have h6 : ((observed.map fun dd => roundDict dd p).any
      fun o_ => dictBeq (roundDict d p) o_) = false := by
    simpa using h5
  have := List.any_eq_false.mp h6 (roundDict o p) (List.mem_map_of_mem _ ho)
  simpa using this

/-- C4 (amended): no candidate surviving `_filter_candidate_points` equals,
after rounding to the configured precision, any observed row; duplicates
among the survivors themselves, however, are only removed under EXACT
equality (`drop_duplicates`), not under rounded comparison — two distinct
survivors may still round to the same row (see the counterexample). -/
theorem C4_dedup_and_no_repeat (acq : AcqState) (observed candidates : List Dict) (p : ℕ) :
    (filter_candidate_points acq observed candidates p).Pairwise
        (fun a b => dictBeq a b = false) ∧
      ∀ d ∈ filter_candidate_points acq observed candidates p, ∀ o ∈ observed,
        dictBeq (roundDict d p) (roundDict o p) = false := by
  constructor
  · show (dedupAux [] _).Pairwise _
    exact (dedupAux_spec _ []).1
  · intro d hd o ho
    exact (mem_filter_candidate_points hd).2.2 o ho

/-- Witness for C4 at a concrete input: one candidate equal to the observed
row is dropped, the other kept; the conclusion holds at this instance. -/
theorem C4_witness :
    (filter_candidate_points acqFloat [[("x", 1/3)]] [[("x", 1/3)], [("x", 1/2)]] 6).Pairwise
        (fun a b => dictBeq a b = false) ∧
      ∀ d ∈ filter_candidate_points acqFloat [[("x", 1/3)]] [[("x", 1/3)], [("x", 1/2)]] 6,
        ∀ o ∈ [[("x", (1:ℚ)/3)]], dictBeq (roundDict d 6) (roundDict o 6) = false :=
  C4_dedup_and_no_repeat acqFloat [[("x", 1/3)]] [[("x", 1/3)], [("x", 1/2)]] 6

/-- Counterexample to C4 as stated: two candidates that differ only at the
eighth decimal both survive (drop_duplicates compares exact values), yet
their roundings at the configured precision 6 coincide — the surviving
table does contain two rows equal under precision-bounded comparison. -/
theorem C4_counterexample :
    filter_candidate_points acqFloat [] [[("x", 1 + 1/10^8)], [("x", 1 + 2/10^8)]] 6
        = [[("x", 1 + 1/10^8)], [("x", 1 + 2/10^8)]] ∧
      roundDict [("x", 1 + 1/10^8)] 6 = roundDict [("x", 1 + 2/10^8)] 6 ∧
      ¬([("x", (1 : ℚ) + 1/10^8)] = [("x", 1 + 2/10^8)]) :=
  ⟨by with_unfolding_all rfl, by with_unfolding_all rfl,
    of_decide_eq_false (by with_unfolding_all rfl)⟩

/-- C5 (amended): every candidate surviving `_filter_candidate_points` has
all its keys in the constraint set and every field satisfying its
constraint — int/float interval bounds (log10-space when the transform is
log and warping is active, wholeness of ints only in the non-log-warped
case), and ordinal closeness under Python `math.isclose(·, ·, abs_tol=1e-2)`
whose default `rel_tol = 1e-9` stays active, i.e. tolerance
`max(1e-2, 1e-9·max(|v|,|x|))` rather than a pure absolute `1e-2`. -/
theorem C5_survivors_satisfy_constraints (acq : AcqState)
    (observed candidates : List Dict) (p : ℕ) (d : Dict)
    (hd : d ∈ filter_candidate_points acq observed candidates p) :
    is_dict_within_ranges acq d = true ∧
      ∀ kv ∈ d, ∃ c, List.lookup kv.1 acq.constraints = some c ∧
        is_within_range acq kv.2 c = true := by
  have h1 := (mem_filter_candidate_points hd).2.1
  refine ⟨h1, ?_⟩
  intro kv hkv
  have h2 := List.all_eq_true.mp h1 kv hkv
  cases hl : List.lookup kv.1 acq.constraints with
  | none =>
    rw [hl] at h2
    simp at h2
  | some c =>
    rw [hl] at h2
    exact ⟨c, rfl, h2⟩

/-- Witness for C5 at a concrete surviving candidate. -/
theorem C5_witness :
    is_dict_within_ranges acqFloat [("x", 1/2)] = true ∧
      ∀ kv ∈ [("x", (1:ℚ)/2)], ∃ c, List.lookup kv.1 acqFloat.constraints = some c ∧
        is_within_range acqFloat kv.2 c = true :=
  C5_survivors_satisfy_constraints acqFloat [] [[("x", 1/2)]] 6 [("x", 1/2)]
    (by with_unfolding_all decide)

/-- Counterexample to C5 as stated: with the single declared ordinal value
`10^10`, the candidate value `10^10 + 1` survives validation (Python's
`math.isclose` default relative tolerance `1e-9` admits it) although it is
a full `1` away from every declared allowed value — far beyond the claimed
absolute tolerance `1e-2`. -/
theorem C5_counterexample :
    filter_candidate_points acqOrdinalBig [] [[("o", 10 ^ 10 + 1)]] 6
        = [[("o", 10 ^ 10 + 1)]] ∧
      ¬(|(10 ^ 10 + 1 : ℚ) - 10 ^ 10| ≤ 1/100) :=
  ⟨by with_unfolding_all rfl, of_decide_eq_false (by with_unfolding_all rfl)⟩

/-- C10 (amended): validation never requires a candidate to assign every
hyperparameter of the task context: a candidate whose keys form a strict
subset of the constraint set and whose present values all validate passes
`is_dict_within_ranges`, and survives `_filter_candidate_points` provided
its rounded form does not equal a rounded observed row (the claim as
stated omits this proviso — see the counterexample). -/
theorem C10_partial_candidate_kept (acq : AcqState) (observed : List Dict)
    (c : Dict) (p : ℕ)
    (hval : ∀ kv ∈ c, (List.lookup kv.1 acq.constraints).any
        (fun hc => is_within_range acq kv.2 hc) = true)
    (hstrict : ∃ k ∈ acq.constraints.map Prod.fst, List.lookup k c = Option.none)
    (hnew : ∀ o ∈ observed, dictBeq (roundDict c p) (roundDict o p) = false) :
    is_dict_within_ranges acq c = true ∧
      filter_candidate_points acq observed [c] p = [c] := by
  have hwithin : is_dict_within_ranges acq c = true := by
    rw [is_dict_within_ranges, List.all_eq_true]
    intro kv hkv
    have hv := hval kv hkv
    cases hl : List.lookup kv.1 acq.constraints with
    | none =>
      rw [hl] at hv
      simp [Option.any] at hv
    | some hc =>
      rw [hl] at hv
      simpa [Option.any] using hv
  refine ⟨hwithin, ?_⟩
  simp only [filter_candidate_points, filter_dicts_by_ranges]
  have hguard : (!((observed.map fun dd => roundDict dd p).any
      fun o => dictBeq (roundDict c p) o)) = true := by
    rw [Bool.not_eq_true']
    rw [List.any_eq_false]
    intro x hx
    obtain ⟨o, ho, rfl⟩ := List.mem_map.mp hx
    simp [hnew o ho]
  rw [List.filter_cons, if_pos hguard, List.filter_nil]
  rw [List.filter_cons, if_pos hwithin, List.filter_nil]
  simp [dedupAux]

/-- Witness for C10 at a concrete input: a candidate assigning only `a` of
the two constrained hyperparameters `a, b` is kept. -/
theorem C10_witness :
    is_dict_within_ranges acqIntPair [("a", 1)] = true ∧
      filter_candidate_points acqIntPair [[("a", 2)]] [[("a", 1)]] 6 = [[("a", 1)]] :=
  C10_partial_candidate_kept acqIntPair [[("a", 2)]] [("a", 1)] 6
    (by with_unfolding_all decide) (by with_unfolding_all decide)
    (by with_unfolding_all decide)

/-- Counterexample to C10 as stated: a candidate with a strict subset of the
constrained keys and a valid value is nevertheless dropped when it equals
an observed row after rounding — "keeps the candidate" does not hold
unconditionally. -/
theorem C10_counterexample :
    filter_candidate_points acqIntPair [[("a", 1)]] [[("a", 1)]] 6 = [] ∧
      is_dict_within_ranges acqIntPair [("a", 1)] = true ∧
      (List.lookup "b" acqIntPair.constraints).isSome = true ∧
      List.lookup "b" [("a", (1:ℚ))] = Option.none := by
  with_unfolding_all decide

/-! ## C7, C8: the candidate formatter -/

theorem insertLe_perm {α : Type} (le : α → α → Bool) (a : α) :
    ∀ l : List α, (insertLe le a l).Perm (a :: l) := by
  intro l
  induction l with
  | nil => exact List.Perm.refl _
  | cons b bs ih =>
    unfold insertLe
    by_cases h : le a b = true
    · rw [if_pos h]
    · rw [if_neg h]
      exact (ih.cons b).trans (List.Perm.swap a b bs)

theorem insSort_perm {α : Type} (le : α → α → Bool) :
    ∀ l : List α, (insSort le l).Perm l := by
  intro l
  induction l with
  | nil => exact List.Perm.refl _
  | cons a l ih => exact (insertLe_perm le a (insSort le l)).trans (ih.cons a)

theorem mem_insertLe {α : Type} {le : α → α → Bool} {a y : α} {l : List α}
    (h : y ∈ insertLe le a l) : y = a ∨ y ∈ l := by
  have := (insertLe_perm le a l).mem_iff.mp h
  simpa using this

theorem insertLe_pairwise {α : Type} {le : α → α → Bool}
    (htot : ∀ a b, le a b = true ∨ le b a = true)
    (htrans : ∀ a b c, le a b = true → le b c = true → le a c = true)
    (a : α) : ∀ {l : List α}, l.Pairwise (fun x y => le x y = true) →
      (insertLe le a l).Pairwise (fun x y => le x y = true) := by
  intro l
  induction l with
  | nil =>
    intro _
    simp [insertLe]
  | cons b bs ih =>
    intro h
    obtain ⟨hb, hbs⟩ := List.pairwise_cons.mp h
    unfold insertLe
    by_cases hab : le a b = true
    · rw [if_pos hab, List.pairwise_cons]
      refine ⟨?_, h⟩
      intro y hy
      rcases List.mem_cons.mp hy with rfl | hy2
      · exact hab
      · exact htrans a b y hab (hb y hy2)
    · rw [if_neg hab, List.pairwise_cons]
      refine ⟨?_, ih hbs⟩
      intro y hy
      rcases mem_insertLe hy with rfl | hy2
      · rcases htot y b with h1 | h1
        · exact absurd h1 hab
        · exact h1
      · exact hb y hy2

theorem insSort_pairwise {α : Type} {le : α → α → Bool}
    (htot : ∀ a b, le a b = true ∨ le b a = true)
    (htrans : ∀ a b c, le a b = true → le b c = true → le a c = true) :
    ∀ l : List α, (insSort le l).Pairwise fun x y => le x y = true := by
  intro l
  induction l with
  | nil => simp [insSort]
  | cons a l ih => exact insertLe_pairwise htot htrans a ih

/-- C7 (amended): in `_prepare_configurations_acquisition`, when no seed is
given the few-shot rows are a permutation of the input sorted by
performance with the best configuration LAST under the optimization
direction (`sort_values(ascending=False)` for minimization puts the lowest
performance last; `ascending=True` for maximization puts the highest last),
not first as the claim states; with a seed, the row order is the
permutation derived from that seed. -/
theorem C7_row_ordering (lib : Bool) (permFn : ℕ → ℕ → List ℕ)
    (configs : List Dict) (fvals : List ℚ) (s : ℕ) :
    (ordered_examples lib permFn configs fvals Option.none).Perm (configs.zip fvals) ∧
      (lib = true → (ordered_examples lib permFn configs fvals Option.none).Pairwise
          fun a b => b.2 ≤ a.2) ∧
      (lib = false → (ordered_examples lib permFn configs fvals Option.none).Pairwise
          fun a b => a.2 ≤ b.2) ∧
      ordered_examples lib permFn configs fvals (some s)
        = (permFn s (configs.zip fvals).length).filterMap
            fun i => (configs.zip fvals).get? i := by
  refine ⟨?_, ?_, ?_, rfl⟩
  · show (sortRowsByFval lib (configs.zip fvals)).Perm _
    cases lib
    · exact insSort_perm _ _
    · exact insSort_perm _ _
  · intro hlib
    subst hlib
    show (insSort (fun a b => decide (b.2 ≤ a.2)) (configs.zip fvals)).Pairwise _
    have htot : ∀ a b : Dict × ℚ,
        (decide (b.2 ≤ a.2)) = true ∨ (decide (a.2 ≤ b.2)) = true := by
      intro a b
      rcases le_total b.2 a.2 with h | h
      · exact Or.inl (decide_eq_true h)
      · exact Or.inr (decide_eq_true h)
    have htrans : ∀ a b c : Dict × ℚ, (decide (b.2 ≤ a.2)) = true →
        (decide (c.2 ≤ b.2)) = true → (decide (c.2 ≤ a.2)) = true := by
      intro a b c h1 h2
      exact decide_eq_true (le_trans (of_decide_eq_true h2) (of_decide_eq_true h1))
    exact (insSort_pairwise htot htrans _).imp fun h => of_decide_eq_true h
  · intro hlib
    subst hlib
    show (insSort (fun a b => decide (a.2 ≤ b.2)) (configs.zip fvals)).Pairwise _
    have htot : ∀ a b : Dict × ℚ,
        (decide (a.2 ≤ b.2)) = true ∨ (decide (b.2 ≤ a.2)) = true := by
      intro a b
      rcases le_total a.2 b.2 with h | h
      · exact Or.inl (decide_eq_true h)
      · exact Or.inr (decide_eq_true h)
    have htrans : ∀ a b c : Dict × ℚ, (decide (a.2 ≤ b.2)) = true →
        (decide (b.2 ≤ c.2)) = true → (decide (a.2 ≤ c.2)) = true := by
      intro a b c h1 h2
      exact decide_eq_true (le_trans (of_decide_eq_true h1) (of_decide_eq_true h2))
    exact (insSort_pairwise htot htrans _).imp fun h => of_decide_eq_true h

/-- Witness for C7 at a concrete minimization table. -/
theorem C7_witness :
    (ordered_examples true permZero [[("x", 1)], [("x", 2)], [("x", 3)]]
        [1/10, 3/10, 2/10] Option.none).Perm
      ([[("x", 1)], [("x", 2)], [("x", 3)]].zip [1/10, 3/10, 2/10]) ∧
      (true = true → (ordered_examples true permZero [[("x", 1)], [("x", 2)], [("x", 3)]]
          [1/10, 3/10, 2/10] Option.none).Pairwise fun a b => b.2 ≤ a.2) ∧
      (true = false → (ordered_examples true permZero [[("x", 1)], [("x", 2)], [("x", 3)]]
          [1/10, 3/10, 2/10] Option.none).Pairwise fun a b => a.2 ≤ b.2) ∧
      ordered_examples true permZero [[("x", 1)], [("x", 2)], [("x", 3)]]
          [1/10, 3/10, 2/10] (some 0)
        = (permZero 0 ([[("x", 1)], [("x", 2)], [("x", 3)]].zip [1/10, 3/10, 2/10]).length).filterMap
            fun i => ([[("x", 1)], [("x", 2)], [("x", 3)]].zip [1/10, 3/10, 2/10]).get? i :=
  C7_row_ordering true permZero [[("x", 1)], [("x", 2)], [("x", 3)]] [1/10, 3/10, 2/10] 0

/-- Counterexample to C7 as stated: with minimization and no seed, the
first rendered row carries the WORST performance (`3/10`), not the best
(`1/10 = listMin`): rows are sorted descending (best last), refuting
best-first ordering. -/
theorem C7_counterexample :
    (ordered_examples true permZero [[("x", 1)], [("x", 2)], [("x", 3)]]
        [1/10, 3/10, 2/10] Option.none).map (fun r => r.2) = [3/10, 2/10, 1/10] ∧
      listMin [1/10, 3/10, 2/10] = 1/10 ∧ ¬((3 : ℚ)/10 = 1/10) := by
  with_unfolding_all decide

/-- C8 (amended): integer-typed values render as bare integers unless the
hyperparameter is log-transformed AND warping is active (in which case they
render with exactly `decimals(range[0])` digits, with no minimum of 1 and
no dependence on the value); float values render with
`max(1, decimals(range[0]), decimals(value))` digits; ordinal values render
with exactly `decimals(range[1])` digits (the SECOND allowed value, again
without the float adjustment); performance values render with exactly 6
decimal digits. -/
theorem C8_render_policies (acq : AcqState) (tr : HTransform) (range : List ℚ) (v : ℚ)
    (permFn : ℕ → ℕ → List ℕ) (configs : List Dict) (fvals : List ℚ) (seed : Option ℕ) :
    (renderValue acq ⟨HKind.int, tr, range⟩ v
        = if acq.applyWarping = true ∧ tr = HTransform.log then
            RenderedCell.fixed v (count_decimal_places (range.headD 0))
          else RenderedCell.asInt (truncQ v)) ∧
      (renderValue acq ⟨HKind.float, tr, range⟩ v
        = RenderedCell.fixed v
            (max 1 (max (count_decimal_places (range.headD 0)) (count_decimal_places v)))) ∧
      (renderValue acq ⟨HKind.ordinal, tr, range⟩ v
        = RenderedCell.fixed v (count_decimal_places ((range.get? 1).getD 0))) ∧
      (prepare_configurations_acquisition acq permFn configs fvals seed).map (fun e => e.a)
        = (ordered_examples acq.lowerIsBetter permFn configs fvals seed).map
            (fun r => RenderedCell.fixed r.2 6) := by
  refine ⟨?_, ?_, ?_, ?_⟩
  · cases hw : acq.applyWarping <;> cases tr <;> simp [renderValue, hw]
  · cases hw : acq.applyWarping <;> cases tr <;> simp [renderValue, hw]
  · cases hw : acq.applyWarping <;> cases tr <;> simp [renderValue, hw]
  · unfold prepare_configurations_acquisition
    rw [List.map_map]
    rfl

/-- Witness for C8 at a concrete instance (log-int constraint, warping on). -/
theorem C8_witness :
    (renderValue acqWarped ⟨HKind.int, HTransform.log, [16, 128]⟩ (21/10)
        = if acqWarped.applyWarping = true ∧ HTransform.log = HTransform.log then
            RenderedCell.fixed (21/10) (count_decimal_places ([16, (128:ℚ)].headD 0))
          else RenderedCell.asInt (truncQ (21/10))) ∧
      (renderValue acqWarped ⟨HKind.float, HTransform.log, [16, 128]⟩ (21/10)
        = RenderedCell.fixed (21/10)
            (max 1 (max (count_decimal_places ([16, (128:ℚ)].headD 0))
              (count_decimal_places ((21:ℚ)/10))))) ∧
      (renderValue acqWarped ⟨HKind.ordinal, HTransform.log, [16, 128]⟩ (21/10)
        = RenderedCell.fixed (21/10) (count_decimal_places (([16, (128:ℚ)].get? 1).getD 0))) ∧
      (prepare_configurations_acquisition acqWarped permZero [[("x", 1)]] [1/2]
          Option.none).map (fun e => e.a)
        = (ordered_examples acqWarped.lowerIsBetter permZero [[("x", 1)]] [1/2]
            Option.none).map (fun r => RenderedCell.fixed r.2 6) :=
  C8_render_policies acqWarped HTransform.log [16, 128] (21/10) permZero [[("x", 1)]]
    [1/2] Option.none

/-- Counterexample to C8 as stated: a log-transformed int under active
warping renders with `decimals(16) = 0` decimal digits, but the claimed
policy `max(1, decimals(lower), decimals(value))` demands 1 — the "any
log-transformed value" precision rule fails for non-float kinds. -/
theorem C8_counterexample :
    renderValue acqWarped ⟨HKind.int, HTransform.log, [16, 128]⟩ (21/10)
        = RenderedCell.fixed (21/10) 0 ∧
      max 1 (max (count_decimal_places (16 : ℚ)) (count_decimal_places ((21 : ℚ)/10))) = 1 ∧
      ¬((0 : ℕ) = 1) := by
  with_unfolding_all decide

/-! ## C1, C6: the retry controller -/

theorem filter_candidate_points_nil (acq : AcqState) (observed : List Dict) (p : ℕ) :
    filter_candidate_points acq observed [] p = [] := rfl

theorem gcpLoop_ok_len {acq : AcqState} {observed : List Dict}
    {templates : List PromptVariant} {llm : ℕ → List (Option String)} :
    ∀ (remaining retry : ℕ) (filtered l : List Dict),
      (gcpLoop acq observed templates llm remaining retry filtered).1 = .ok l →
      5 ≤ l.length := by
  intro remaining
  induction remaining with
  | zero =>
    intro retry filtered l h
    simp only [gcpLoop] at h
    by_cases h5 : filtered.length < 5
    · rw [if_pos h5] at h
      by_cases hc : 5 ≤ (parse_responses (llm retry)).length
      · rw [if_pos hc] at h
        simp only [Except.ok.injEq] at h
        subst h
        exact hc
      · rw [if_neg hc] at h
        simp at h
    · rw [if_neg h5] at h
      simp only [Except.ok.injEq] at h
      subst h
      omega
  | succ r ih =>
    intro retry filtered l h
    simp only [gcpLoop] at h
    by_cases h5 : filtered.length < 5
    · rw [if_pos h5] at h
      exact ih (retry + 1) _ l h
    · rw [if_neg h5] at h
      simp only [Except.ok.injEq] at h
      subst h
      omega

theorem gcpLoop_attempts_le {acq : AcqState} {observed : List Dict}
    {templates : List PromptVariant} {llm : ℕ → List (Option String)} :
    ∀ (remaining retry : ℕ) (filtered : List Dict),
      (gcpLoop acq observed templates llm remaining retry filtered).2.1 ≤ remaining + 1 := by
  intro remaining
  induction remaining with
  | zero =>
    intro retry filtered
    simp only [gcpLoop]
    by_cases h5 : filtered.length < 5
    · rw [if_pos h5]
      by_cases hc : 5 ≤ (parse_responses (llm retry)).length
      · rw [if_pos hc]
      · rw [if_neg hc]
    · rw [if_neg h5]
      simp
  | succ r ih =>
    intro retry filtered
    simp only [gcpLoop]
    by_cases h5 : filtered.length < 5
    · rw [if_pos h5]
      show (gcpLoop acq observed templates llm r (retry + 1)
          (filter_candidate_points acq observed (parse_responses (llm retry)) 6)).2.1 + 1
        ≤ r + 1 + 1
      have := ih (retry + 1) (filter_candidate_points acq observed
        (parse_responses (llm retry)) 6)
      omega
    · rw [if_neg h5]
      simp

theorem gcpLoop_log_replicate {acq : AcqState} {observed : List Dict}
    {templates : List PromptVariant} {llm : ℕ → List (Option String)} :
    ∀ (remaining retry : ℕ) (filtered : List Dict),
      (gcpLoop acq observed templates llm remaining retry filtered).2.2
        = List.replicate (gcpLoop acq observed templates llm remaining retry filtered).2.1
            templates := by
  intro remaining
  induction remaining with
  | zero =>
    intro retry filtered
    simp only [gcpLoop]
    by_cases h5 : filtered.length < 5
    · rw [if_pos h5]
      by_cases hc : 5 ≤ (parse_responses (llm retry)).length
      · rw [if_pos hc]
        rfl
      · rw [if_neg hc]
        rfl
    · rw [if_neg h5]
      rfl
  | succ r ih =>
    intro retry filtered
    simp only [gcpLoop]
    by_cases h5 : filtered.length < 5
    · rw [if_pos h5]
      show templates :: (gcpLoop acq observed templates llm r (retry + 1) _).2.2
          = List.replicate ((gcpLoop acq observed templates llm r (retry + 1) _).2.1 + 1)
            templates
      rw [ih (retry + 1) _]
      rfl
    · rw [if_neg h5]
      rfl

theorem gcpLoop_exhaustion {acq : AcqState} {observed : List Dict}
    {templates : List PromptVariant} {llm : ℕ → List (Option String)} :
    ∀ (remaining retry : ℕ) (filtered : List Dict),
      (∀ i, retry ≤ i → i ≤ retry + remaining →
        (filter_candidate_points acq observed (parse_responses (llm i)) 6).length < 5) →
      filtered.length < 5 →
      gcpLoop acq observed templates llm remaining retry filtered
        = (if 5 ≤ (parse_responses (llm (retry + remaining))).length
              then .ok (parse_responses (llm (retry + remaining)))
              else .error (),
            remaining + 1, List.replicate (remaining + 1) templates) := by
  intro remaining
  induction remaining with
  | zero =>
    intro retry filtered hlow hfil
    simp only [gcpLoop, Nat.add_zero]
    rw [if_pos hfil]
    by_cases hc : 5 ≤ (parse_responses (llm retry)).length
    · rw [if_pos hc, if_pos hc]
      rfl
    · rw [if_neg hc, if_neg hc]
      rfl
  | succ r ih =>
    intro retry filtered hlow hfil
    simp only [gcpLoop]
    rw [if_pos hfil]
    have hmid : (filter_candidate_points acq observed (parse_responses (llm retry)) 6).length
        < 5 := hlow retry (le_refl _) (by omega)
    rw [ih (retry + 1) (filter_candidate_points acq observed (parse_responses (llm retry)) 6)
      (fun i h1 h2 => hlow i (by omega) (by omega)) hmid]
    have harg : retry + 1 + r = retry + (r + 1) := by omega
    rw [harg]
    simp [List.replicate_succ]

theorem gcpLoop_first_success {acq : AcqState} {observed : List Dict}
    {templates : List PromptVariant} {llm : ℕ → List (Option String)}
    (r retry : ℕ)
    (h : ¬((filter_candidate_points acq observed (parse_responses (llm retry)) 6).length < 5)) :
    gcpLoop acq observed templates llm (r + 1) retry []
      = (.ok (filter_candidate_points acq observed (parse_responses (llm retry)) 6), 1,
          [templates]) := by
  simp only [gcpLoop]
  rw [if_pos (by simp)]
  have hinner : gcpLoop acq observed templates llm r (retry + 1)
      (filter_candidate_points acq observed (parse_responses (llm retry)) 6)
      = (.ok (filter_candidate_points acq observed (parse_responses (llm retry)) 6), 0, []) := by
    cases r with
    | zero =>
      simp only [gcpLoop]
      rw [if_neg h]
    | succ r2 =>
      simp only [gcpLoop]
      rw [if_neg h]
  rw [hinner]

/-- C1 (amended): the retry loop of `get_candidate_points` terminates within
ELEVEN attempts (the initial attempt plus 10 retries: `retry` counts 0..10
before `retry > 10` fires).  Whenever it returns a table it has at least 5
rows; an attempt whose validated table reaches 5 rows returns immediately
(so a generator valid from attempt one gives exactly one cycle); when every
attempt validates fewer than 5 candidates, the loop exhausts all 11
attempts and then: if the last (11th) attempt parsed at least 5 raw
candidates they are accepted UNFILTERED as the degenerate fallback,
otherwise the generation-exhausted error is raised — in either case after
the 11th, not 10th, attempt. -/
theorem C1_retry_controller (acq : AcqState) (observed : List Dict) (fvals : List ℚ)
    (alpha0 : ℚ) (rng : List ℚ) (llm : ℕ → List (Option String)) :
    (get_candidate_points acq observed fvals alpha0 rng llm).2.1 ≤ 11 ∧
      (∀ l, (get_candidate_points acq observed fvals alpha0 rng llm).1 = .ok l →
        5 ≤ l.length) ∧
      (¬((filter_candidate_points acq observed (parse_responses (llm 0)) 6).length < 5) →
        get_candidate_points acq observed fvals alpha0 rng llm
          = (.ok (filter_candidate_points acq observed (parse_responses (llm 0)) 6), 1,
              [gcp_templates acq fvals alpha0 rng])) ∧
      ((∀ i, i ≤ 10 →
          (filter_candidate_points acq observed (parse_responses (llm i)) 6).length < 5) →
        5 ≤ (parse_responses (llm 10)).length →
        get_candidate_points acq observed fvals alpha0 rng llm
          = (.ok (parse_responses (llm 10)), 11,
              List.replicate 11 (gcp_templates acq fvals alpha0 rng))) ∧
      ((∀ i, i ≤ 10 →
          (filter_candidate_points acq observed (parse_responses (llm i)) 6).length < 5) →
        (parse_responses (llm 10)).length < 5 →
        get_candidate_points acq observed fvals alpha0 rng llm
          = (.error (), 11, List.replicate 11 (gcp_templates acq fvals alpha0 rng))) := by
  refine ⟨?_, ?_, ?_, ?_, ?_⟩
  · exact gcpLoop_attempts_le 10 0 []
  · intro l h
    exact gcpLoop_ok_len 10 0 [] l h
  · intro h
    exact gcpLoop_first_success 9 0 h
  · intro hlow hraw
    have h := @gcpLoop_exhaustion acq observed (gcp_templates acq fvals alpha0 rng) llm
      10 0 [] (fun i _ h2 => hlow i (by omega)) (by simp)
    simp only [Nat.zero_add] at h
    show gcpLoop acq observed (gcp_templates acq fvals alpha0 rng) llm 10 0 [] = _
    rw [h, if_pos hraw]
  · intro hlow hraw
    have h := @gcpLoop_exhaustion acq observed (gcp_templates acq fvals alpha0 rng) llm
      10 0 [] (fun i _ h2 => hlow i (by omega)) (by simp)
    simp only [Nat.zero_add] at h
    show gcpLoop acq observed (gcp_templates acq fvals alpha0 rng) llm 10 0 [] = _
    rw [h, if_neg (by omega)]

/-- Witness for C1 exercising the degenerate-fallback clause at a concrete
run: a generator always yielding five parseable but out-of-range
candidates validates zero candidates on every attempt, exhausts all eleven
attempts, and the raw candidates of the last attempt are returned
unfiltered. -/
theorem C1_witness :
    get_candidate_points acqFloat [] [1/2, 3/10] (1/10) [] llmRawOnly
      = (.ok (parse_responses (llmRawOnly 10)), 11,
          List.replicate 11 (gcp_templates acqFloat [1/2, 3/10] (1/10) [])) :=
  (C1_retry_controller acqFloat [] [1/2, 3/10] (1/10) [] llmRawOnly).2.2.2.1
    (by with_unfolding_all decide) (by with_unfolding_all decide)

/-- Counterexample to C1 as stated: a generator that never yields any
candidate makes the loop dispatch ELEVEN attempts before raising the
generation-exhausted error, not ten — the attempt counter runs 0..10 and
the `retry > 10` test only fires after the increment of the 11th pass. -/
theorem C1_counterexample :
    (get_candidate_points acqFloat [] [1/2, 3/10] (1/10) [] llmSilent).2.1 = 11 ∧
      (get_candidate_points acqFloat [] [1/2, 3/10] (1/10) [] llmSilent).1 = .error () := by
  constructor
  · with_unfolding_all rfl
  · with_unfolding_all rfl

/-- C6 (amended): the prompt variants (including their jittered targets)
are generated ONCE, before the retry loop of `get_candidate_points`; every
attempt, retries included, re-dispatches exactly that same batch — the
dispatch log is a constant replication of the pre-loop variants. -/
theorem C6_variants_built_once (acq : AcqState) (observed : List Dict) (fvals : List ℚ)
    (alpha0 : ℚ) (rng : List ℚ) (llm : ℕ → List (Option String)) :
    (get_candidate_points acq observed fvals alpha0 rng llm).2.2
      = List.replicate (get_candidate_points acq observed fvals alpha0 rng llm).2.1
          (gcp_templates acq fvals alpha0 rng) :=
  gcpLoop_log_replicate 10 0 []

/-- Witness for C6 at a concrete jittered run. -/
theorem C6_witness :
    (get_candidate_points acqJitter [] [1/2, 1/4] (1/10) [0, 1/2] llmSilent).2.2
      = List.replicate
          (get_candidate_points acqJitter [] [1/2, 1/4] (1/10) [0, 1/2] llmSilent).2.1
          (gcp_templates acqJitter [1/2, 1/4] (1/10) [0, 1/2]) :=
  C6_variants_built_once acqJitter [] [1/2, 1/4] (1/10) [0, 1/2] llmSilent

/-- Counterexample to C6 as stated: with jitter enabled and random draws
`[0, 1/2]`, the source's second dispatched batch is identical to the first
(the variants are built once and reused), whereas the spec-modelled loop
that regenerates fresh jittered targets each attempt (`gcpFreshDispatches`)
dispatches a DIFFERENT batch on its second attempt — so fresh variants are
not generated on retries. -/
theorem C6_counterexample :
    (get_candidate_points acqJitter [] [1/2, 1/4] (1/10) [0, 1/2] llmSilent).2.2.get? 1
        = (get_candidate_points acqJitter [] [1/2, 1/4] (1/10) [0, 1/2] llmSilent).2.2.get? 0 ∧
      ¬((gcpFreshDispatches acqJitter (1/4)
            ((adjust_alpha_and_desired_fval true [1/2, 1/4] (1/10)).2) [] llmSilent
            10 0 [0, 1/2] []).get? 1
          = (gcpFreshDispatches acqJitter (1/4)
            ((adjust_alpha_and_desired_fval true [1/2, 1/4] (1/10)).2) [] llmSilent
            10 0 [0, 1/2] []).get? 0) := by
  constructor
  · with_unfolding_all rfl
  · exact of_decide_eq_false (by with_unfolding_all rfl)

end Llambo
